/-
  Verification of the racing-game core (vehicle physics integrator, terrain
  classifier, collision probe/resolver) against its design specification.

  The Python source (`car.py`, `track.py`, `settings.py`, `game_settings.py`)
  is shallowly embedded below.  Python floats are idealised as real numbers;
  Python `int(...)` truncation toward zero is `pyInt`; the pygame raster
  surface is a pixel function on natural coordinates.
-/
import Mathlib

open scoped Classical

namespace Race

/-! ## Colors and settings (`settings.py`) -/

/-- An RGB color triple, as used by the collision mask. -/
abbrev Color := ℕ × ℕ × ℕ

/-- `TRACK_COLORS['TRACK_SURFACE'] = (0, 0, 0)` — drivable area. -/
def trackSurfaceColor : Color := (0, 0, 0)

/-- `TRACK_COLORS['WALL'] = (255, 255, 255)` — impassable barriers. -/
def wallColor : Color := (255, 255, 255)

/-- `TRACK_COLORS['START_POSITION'] = (0, 0, 255)` — starting points. -/
def startPositionColor : Color := (0, 0, 255)

/-- `TRACK_COLORS['SLOW_DOWN'] = (0, 255, 0)` — grass/sand areas. -/
def slowDownColor : Color := (0, 255, 0)

/-- `SCREEN_WIDTH = 1280` from `settings.py`. -/
def SCREEN_WIDTH : ℕ := 1280

/-- `SCREEN_HEIGHT = 720` from `settings.py`. -/
def SCREEN_HEIGHT : ℕ := 720

/-- `SLOW_DOWN_MULTIPLIER = 0.5` from `settings.py`. -/
noncomputable def SLOW_DOWN_MULTIPLIER : ℝ := 0.5

/-- `REVERSE_SPEED_MULTIPLIER = 0.5` from `settings.py`. -/
noncomputable def REVERSE_SPEED_MULTIPLIER : ℝ := 0.5

/-- `PHYSICS_ADJUSTMENT['turn_speed_increment'] = 0.2` from `settings.py`. -/
noncomputable def turnSpeedIncrement : ℝ := 0.2

/-- `PHYSICS_ADJUSTMENT['acceleration_increment'] = 0.05` from `settings.py`. -/
noncomputable def accelerationIncrement : ℝ := 0.05

/-- `PHYSICS_ADJUSTMENT['max_adjustment'] = 2.0` from `settings.py`. -/
noncomputable def maxAdjustment : ℝ := 2.0

/-- `PHYSICS_ADJUSTMENT['min_adjustment'] = 0.2` from `settings.py`. -/
noncomputable def minAdjustment : ℝ := 0.2

/-! ## Python primitives -/

/-- Python `int(...)` applied to a float: truncation toward zero. -/
noncomputable def pyInt (r : ℝ) : ℤ := if 0 ≤ r then ⌊r⌋ else ⌈r⌉

/-- Python `math.radians`: degrees to radians. -/
noncomputable def radians (d : ℝ) : ℝ := d * Real.pi / 180

/-- Python `range(start, stop, step)` for positive step, as a list. -/
def pyRange (start stop step : ℕ) : List ℕ :=
  (List.range ((stop - start + step - 1) / step)).map (fun i => start + step * i)

/-! ## The Track (`track.py`) -/

/-- A loaded collision-mask raster: dimensions plus a pixel function
(`surface.get_at` restricted to the RGB channels). -/
structure Mask where
  width : ℕ
  height : ℕ
  px : ℕ → ℕ → Color

/-- The `Track` object: an optional collision mask (`mask_surface`, `None`
until loaded) and the discovered list of start positions.  The visual
surface plays no role in the simulation core and is omitted. -/
structure Track where
  maskSurface : Option Mask
  startPositions : List (ℕ × ℕ)

/-- `Track.check_collision`: classify the surface at integer coordinates.
A missing mask or any out-of-bounds coordinate answers `WALL`; otherwise
the RGB value of the mask pixel. -/
def Track.checkCollision (t : Track) (x y : ℤ) : Color :=
  match t.maskSurface with
  | none => wallColor
  | some m =>
      if x < 0 ∨ (m.width : ℤ) ≤ x ∨ y < 0 ∨ (m.height : ℤ) ≤ y then wallColor
      else m.px x.toNat y.toNat

/-- `Track._find_start_positions`: scan the mask with `x` as the outer loop
and `y` as the inner loop, collecting the coordinates of every pixel whose
RGB value is the start-position color, in scan order. -/
def findStartPositions (m : Mask) : List (ℕ × ℕ) :=
  (List.range m.width).flatMap fun x =>
    (List.range m.height).filterMap fun y =>
      if m.px x y = startPositionColor then some (x, y) else none

/-- `Track.get_start_positions` returns (a copy of) the stored list. -/
def Track.getStartPositions (t : Track) : List (ℕ × ℕ) := t.startPositions

/-! ## Global tuning state (`game_settings.py`) -/

/-- The `GameSettings` tuning store read by every collision resolution. -/
structure GameSettings where
  wallStickiness : ℝ
  wallBounceFactor : ℝ

/-! ## The Car (`car.py`) -/

/-- The simulation-relevant state of a `Car`.  Rendering surfaces are
omitted; `size` is split into its two components. -/
structure Car where
  x : ℝ
  y : ℝ
  startX : ℝ
  startY : ℝ
  vx : ℝ
  vy : ℝ
  angle : ℝ
  startAngle : ℝ
  acceleration : ℝ
  maxSpeed : ℝ
  currentMaxSpeed : ℝ
  friction : ℝ
  turnSpeed : ℝ
  sizeX : ℕ
  sizeY : ℕ
  onSlowSurface : Bool
  isReversing : Bool

/-- The per-tick input snapshot: the four control booleans. -/
structure InputState where
  accelerate : Bool
  brake : Bool
  turnLeft : Bool
  turnRight : Bool

/-- Ghost tag recording which branch of the collision resolver produced the
tick's final state.  `stayed` is the implicit branch where the car keeps its
old (probe-clear) position with `speed ≥ 0.3`. -/
inductive Outcome
  | clear
  | sliding
  | stayed
  | repositioned
  | reset
deriving DecidableEq, Repr

/-- `Car._calculate_collision_points`: the five hull-relative probe offsets
(front center, front right, rear right, rear left, front left). -/
def collisionPoints (w h : ℕ) : List (ℤ × ℤ) :=
  [((w / 2 : ℕ), 0), ((w : ℤ) - 2, 2), ((w : ℤ) - 2, (h : ℤ) - 2),
   (2, (h : ℤ) - 2), (2, 2)]

/-- `Car._get_collision_points_world` evaluated at position `(px, py)`:
rotate each hull offset by the car's heading, translate, truncate to ints.
(The source mutates `self.x, self.y` to the probed position first; here the
position is passed explicitly.) -/
noncomputable def collisionPointsWorld (c : Car) (px py : ℝ) : List (ℤ × ℤ) :=
  (collisionPoints c.sizeX c.sizeY).map fun lp =>
    let a := radians c.angle
    let rx := (lp.1 : ℝ) * Real.cos a - (lp.2 : ℝ) * Real.sin a
    let ry := (lp.1 : ℝ) * Real.sin a + (lp.2 : ℝ) * Real.cos a
    (pyInt (px + rx), pyInt (py + ry))

/-- Result record of `Car._check_collision`. -/
structure CollisionResult where
  collision : Bool
  wallPoints : List (ℤ × ℤ)
  collisionCount : ℕ

/-- `Car._check_collision` at a proposed position: classify the five world
probe points and collect those on `WALL`. -/
noncomputable def checkCollisionAt (c : Car) (t : Track) (nx ny : ℝ) :
    CollisionResult :=
  let pts := collisionPointsWorld c nx ny
  let walls := pts.filter fun p => t.checkCollision p.1 p.2 = wallColor
  ⟨!walls.isEmpty, walls, walls.length⟩

/-- The eight neighbor directions sampled by `Car._calculate_wall_normal`. -/
def neighborOffsets : List (ℤ × ℤ) :=
  [(-1, -1), (-1, 0), (-1, 1), (0, -1), (0, 1), (1, -1), (1, 0), (1, 1)]

/-- Accumulate, over the given wall points, the neighbor offsets whose
step-2 neighbor is not `WALL` (the inner double loop of
`Car._calculate_wall_normal`). -/
noncomputable def accumulateNormal (t : Track) (pts : List (ℤ × ℤ)) : ℝ × ℝ :=
  pts.foldl
    (fun n wp =>
      neighborOffsets.foldl
        (fun n' d =>
          if t.checkCollision (wp.1 + d.1 * 2) (wp.2 + d.2 * 2) ≠ wallColor then
            (n'.1 + (d.1 : ℝ), n'.2 + (d.2 : ℝ))
          else n')
        n)
    (0, 0)

/-- `Car._calculate_wall_normal`: estimate an outward wall normal from the
offending points (only the first three are sampled, `wall_points[:3]`),
falling back to the car-center-to-first-point direction and then to the
default upward vector `(0, -1)`. -/
noncomputable def calculateWallNormal (c : Car) (wallPoints : List (ℤ × ℤ))
    (t : Track) : ℝ × ℝ :=
  match wallPoints with
  | [] => (0, -1)
  | wp0 :: _ =>
      let acc := accumulateNormal t (wallPoints.take 3)
      let len := Real.sqrt (acc.1 ^ 2 + acc.2 ^ 2)
      if len > 0 then (acc.1 / len, acc.2 / len)
      else
        let dx := c.x - (wp0.1 : ℝ)
        let dy := c.y - (wp0.2 : ℝ)
        let len2 := Real.sqrt (dx ^ 2 + dy ^ 2)
        if len2 > 0 then (dx / len2, dy / len2) else (0, -1)

/-- `Car._reset_to_start`: snap to spawn position and heading, zero the
velocity, clear the reversing flag. -/
def resetToStart (c : Car) : Car :=
  { c with x := c.startX, y := c.startY, vx := 0, vy := 0,
           angle := c.startAngle, isReversing := false }

/-- The inner (angle) loop of `Car._find_safe_position` at a fixed radius:
return the first candidate whose probe is collision-free. -/
noncomputable def searchAngles (c : Car) (t : Track) (radius : ℕ) :
    List ℕ → Option (ℝ × ℝ)
  | [] => none
  | a :: rest =>
      let tx := c.x + Real.cos (radians (a : ℝ)) * (radius : ℝ)
      let ty := c.y + Real.sin (radians (a : ℝ)) * (radius : ℝ)
      if (checkCollisionAt c t tx ty).collision then searchAngles c t radius rest
      else some (tx, ty)

/-- The outer (radius) loop of `Car._find_safe_position`. -/
noncomputable def searchRadii (c : Car) (t : Track) : List ℕ → Option (ℝ × ℝ)
  | [] => none
  | r :: rest =>
      match searchAngles c t r (pyRange 0 360 15) with
      | some p => some p
      | none => searchRadii c t rest

/-- `Car._find_safe_position`: scan `range(5, 25, 2)` radii crossed with
`range(0, 360, 15)` angles; accept the first collision-free candidate and
damp the velocity by `0.3`; if the scan is exhausted, reset to start. -/
noncomputable def findSafePosition (c : Car) (t : Track) : Car × Outcome :=
  match searchRadii c t (pyRange 5 25 2) with
  | some p => ({ c with x := p.1, y := p.2,
                        vx := c.vx * 0.3, vy := c.vy * 0.3 }, .repositioned)
  | none => (resetToStart c, .reset)

/-- The tail of `Car._handle_collision`: if the current position still
collides or `speed < 0.3`, run the safe-position search, otherwise keep the
current state.  `speed` is the value computed right after the damping step
(the source does not recompute it after reflection). -/
noncomputable def stuckCheck (c : Car) (t : Track) (speed : ℝ) : Car × Outcome :=
  if (checkCollisionAt c t c.x c.y).collision ∨ speed < 0.3 then
    findSafePosition c t
  else (c, .stayed)

/-- The reflection step of `Car._handle_collision`: reflect the velocity
about the wall normal with restitution factor `0.3`, but only when the
velocity still points into the wall. -/
noncomputable def reflectVelocity (c1 : Car) (n : ℝ × ℝ) : Car :=
  let dp := c1.vx * n.1 + c1.vy * n.2
  if dp < 0 then
    { c1 with vx := c1.vx - 2 * dp * n.1 * 0.3,
              vy := c1.vy - 2 * dp * n.2 * 0.3 }
  else c1

/-- The sliding/stuck part of `Car._handle_collision`, applied to the
already-damped car `c1`. -/
noncomputable def collideBody (c1 : Car) (wallPoints : List (ℤ × ℤ))
    (t : Track) : Car × Outcome :=
  let speed := Real.sqrt (c1.vx ^ 2 + c1.vy ^ 2)
  if speed > 0.1 then
    let n := calculateWallNormal c1 wallPoints t
    let c2 := reflectVelocity c1 n
    let tx := c2.x + n.1 * 3
    let ty := c2.y + n.2 * 3
    if (checkCollisionAt c2 t tx ty).collision then stuckCheck c2 t speed
    else ({ c2 with x := tx, y := ty }, .sliding)
  else stuckCheck c1 t speed

/-- `Car._handle_collision`: damp velocity by stickiness/bounce, then try to
slide along the estimated wall normal, else fall back to the stuck check. -/
noncomputable def handleCollision (gs : GameSettings) (c : Car)
    (res : CollisionResult) (t : Track) : Car × Outcome :=
  let reduction := (0.2 + (res.collisionCount : ℝ) * 0.1) * gs.wallStickiness
  let bf := gs.wallBounceFactor
  collideBody { c with vx := c.vx * (bf * (1 - reduction)),
                       vy := c.vy * (bf * (1 - reduction)) } res.wallPoints t

/-- The input/physics phase of `Car.update` up to (but excluding) the speed
clamp: reversing detection, turning, acceleration, braking/reverse thrust,
and friction. -/
noncomputable def preClampPhase (c : Car) (inp : InputState) : Car :=
  let speed := Real.sqrt (c.vx ^ 2 + c.vy ^ 2)
  let fwdX := Real.cos (radians c.angle)
  let fwdY := Real.sin (radians c.angle)
  let isRev : Bool :=
    if c.vx * fwdX + c.vy * fwdY < 0 ∧ speed > 0.1 then true else false
  let turnFactor := min (speed / c.maxSpeed) 1
  let turnAmount0 := c.turnSpeed * turnFactor
  let turnAmount := if isRev then -turnAmount0 else turnAmount0
  let a1 := if speed > 0.1 ∧ inp.turnLeft then c.angle - turnAmount else c.angle
  let a2 := if speed > 0.1 ∧ inp.turnRight then a1 + turnAmount else a1
  let vx1 := if inp.accelerate then c.vx + Real.cos (radians a2) * c.acceleration
             else c.vx
  let vy1 := if inp.accelerate then c.vy + Real.sin (radians a2) * c.acceleration
             else c.vy
  let vx2 :=
    if inp.brake then
      if speed < 0.5 then
        vx1 - Real.cos (radians a2) * (c.acceleration * REVERSE_SPEED_MULTIPLIER)
      else vx1 - vx1 / speed * 0.3
    else vx1
  let vy2 :=
    if inp.brake then
      if speed < 0.5 then
        vy1 - Real.sin (radians a2) * (c.acceleration * REVERSE_SPEED_MULTIPLIER)
      else vy1 - vy1 / speed * 0.3
    else vy1
  { c with angle := a2, isReversing := isRev,
           vx := vx2 * c.friction, vy := vy2 * c.friction }

/-- The speed-clamp step of `Car.update`: if the current speed exceeds the
effective maximum (halved while reversing), rescale the velocity onto it. -/
noncomputable def clampSpeed (c : Car) : Car :=
  let currentSpeed := Real.sqrt (c.vx ^ 2 + c.vy ^ 2)
  let maxSpeedToUse :=
    if c.isReversing then c.currentMaxSpeed * REVERSE_SPEED_MULTIPLIER
    else c.currentMaxSpeed
  if currentSpeed > maxSpeedToUse then
    { c with vx := c.vx * (maxSpeedToUse / currentSpeed),
             vy := c.vy * (maxSpeedToUse / currentSpeed) }
  else c

/-- The full physics phase of `Car.update` (everything before the move). -/
noncomputable def tickPhysics (c : Car) (inp : InputState) : Car :=
  clampSpeed (preClampPhase c inp)

/-- The movement/collision-resolution phase of `Car.update`: propose
`position + velocity`, probe it, and either accept it (updating the
slow-surface state from the terrain class at the new center) or hand the
result to the collision handler. -/
noncomputable def resolveMove (gs : GameSettings) (c : Car) (t : Track) :
    Car × Outcome :=
  let newX := c.x + c.vx
  let newY := c.y + c.vy
  let res := checkCollisionAt c t newX newY
  if res.collision then handleCollision gs c res t
  else
    let c' := { c with x := newX, y := newY }
    if t.checkCollision (pyInt c'.x) (pyInt c'.y) = slowDownColor then
      ({ c' with currentMaxSpeed := c.maxSpeed * SLOW_DOWN_MULTIPLIER,
                 onSlowSurface := true }, .clear)
    else
      ({ c' with currentMaxSpeed := c.maxSpeed, onSlowSurface := false }, .clear)

/-- The final failsafe of `Car.update`: clamp the center onto the screen
rectangle, using integer half-sizes (`size // 2`). -/
noncomputable def screenClamp (c : Car) : Car :=
  { c with
    x := max ((c.sizeX / 2 : ℕ) : ℝ) (min ((SCREEN_WIDTH : ℝ) - ((c.sizeX / 2 : ℕ) : ℝ)) c.x),
    y := max ((c.sizeY / 2 : ℕ) : ℝ) (min ((SCREEN_HEIGHT : ℝ) - ((c.sizeY / 2 : ℕ) : ℝ)) c.y) }

/-- `Car.update`: one full tick — physics integration, collision
resolution, and the screen-bounds failsafe — together with the ghost
resolver outcome. -/
noncomputable def Car.update (gs : GameSettings) (c : Car) (inp : InputState)
    (t : Track) : Car × Outcome :=
  let c1 := tickPhysics c inp
  let r := resolveMove gs c1 t
  (screenClamp r.1, r.2)

/-- `Car.adjust_physics` for `parameter == 'turn_speed'`. -/
noncomputable def adjustTurnSpeed (c : Car) (increase : Bool) : Car :=
  if increase then
    { c with turnSpeed := min (c.turnSpeed + turnSpeedIncrement)
                              (c.turnSpeed * maxAdjustment) }
  else
    { c with turnSpeed := max (c.turnSpeed - turnSpeedIncrement)
                              (c.turnSpeed * minAdjustment) }

/-- `Car.adjust_physics` for `parameter == 'acceleration'`. -/
noncomputable def adjustAcceleration (c : Car) (increase : Bool) : Car :=
  if increase then
    { c with acceleration := min (c.acceleration + accelerationIncrement)
                                 (c.acceleration * maxAdjustment) }
  else
    { c with acceleration := max (c.acceleration - accelerationIncrement)
                                 (c.acceleration * minAdjustment) }

/-! ## The procedural fallback track (`Track._create_fallback_track`)

The mask is built by pygame draw calls (fill, two filled ellipses, two
filled circles); the rasterisation of `pygame.draw.ellipse` /
`pygame.draw.circle` is modelled by the standard inside tests on the
inscribed ellipse/disc of the given rect/center-radius. -/

/-- Inside test for the filled ellipse inscribed in a rect with center
`(cx, cy)` and semi-axes `a, b`, cross-multiplied to stay in `ℤ`. -/
def inEllipse (cx cy a b : ℤ) (x y : ℕ) : Bool :=
  ((x : ℤ) - cx) ^ 2 * b ^ 2 + ((y : ℤ) - cy) ^ 2 * a ^ 2 ≤ (a * b) ^ 2

/-- Inside test for the filled circle of center `(cx, cy)` and radius `r`. -/
def inCircle (cx cy r : ℤ) (x y : ℕ) : Bool :=
  ((x : ℤ) - cx) ^ 2 + ((y : ℤ) - cy) ^ 2 ≤ r ^ 2

/-- The fallback collision mask, layered in draw order (later draws win):
white fill, outer black ellipse in rect `(100, 100, 1080, 520)`, inner
white ellipse in rect `(200, 200, 880, 320)`, and two blue start circles of
radius 5 at `(150, 340)` and `(150, 380)`. -/
def fallbackMaskAt (x y : ℕ) : Color :=
  if inCircle 150 340 5 x y ∨ inCircle 150 380 5 x y then startPositionColor
  else if inEllipse 640 360 440 160 x y then wallColor
  else if inEllipse 640 360 540 260 x y then trackSurfaceColor
  else wallColor

/-- The `Track` produced by `Track._create_fallback_track`: the mask above
plus the manually listed start positions
`(150, SCREEN_HEIGHT // 2 - 20)` and `(150, SCREEN_HEIGHT // 2 + 20)`. -/
def fallbackTrack : Track :=
  { maskSurface := some ⟨SCREEN_WIDTH, SCREEN_HEIGHT, fallbackMaskAt⟩,
    startPositions := [(150, 340), (150, 380)] }

/-- The fallback mask contains a SlowDown-classified pixel somewhere on the
screen (the "at least one SlowDown patch" part of the fallback contract). -/
def fallbackHasSlowDown : Prop :=
  ∃ x y, x < SCREEN_WIDTH ∧ y < SCREEN_HEIGHT ∧ fallbackMaskAt x y = slowDownColor

/-! ## Spec-side definitions (written from the specification's words) -/

/-- The speed of a car: the Euclidean norm of its velocity. -/
noncomputable def speedOf (c : Car) : ℝ := Real.sqrt (c.vx ^ 2 + c.vy ^ 2)

/-- Modelled from the spec: `startPositions()` in "raster scan order
(row-major)" — rows scanned in order of `y`, each row in order of `x`. -/
def rowMajorScan (m : Mask) : List (ℕ × ℕ) :=
  (List.range m.height).flatMap fun y =>
    (List.range m.width).filterMap fun x =>
      if m.px x y = startPositionColor then some (x, y) else none

/-- Column-major (x-major) precedence on pixel coordinates: smaller `x`
first, ties broken by smaller `y`. -/
def colexLt (p q : ℕ × ℕ) : Prop := p.1 < q.1 ∨ (p.1 = q.1 ∧ p.2 < q.2)

/-- The safe-position candidate list exactly as the claim words it: radii
5..23 in steps of 2 (outer), crossed with angles 0..345° in steps of 15
(inner), offsets from the current position. -/
noncomputable def claimCandidates (c : Car) : List (ℝ × ℝ) :=
  ([5, 7, 9, 11, 13, 15, 17, 19, 21, 23] : List ℕ).flatMap fun r =>
    ([0, 15, 30, 45, 60, 75, 90, 105, 120, 135, 150, 165, 180, 195, 210,
      225, 240, 255, 270, 285, 300, 315, 330, 345] : List ℕ).map fun a =>
      (c.x + Real.cos (radians (a : ℝ)) * (r : ℝ),
       c.y + Real.sin (radians (a : ℝ)) * (r : ℝ))

/-- The safe-position search as the claim describes it: accept the first
candidate whose probe is clear, damping the velocity by `0.3`; if every
candidate collides, reset exactly to spawn position and heading with zero
velocity and the reversing flag cleared. -/
noncomputable def claimSafeSearch (c : Car) (t : Track) : Car × Outcome :=
  match (claimCandidates c).find?
      (fun p => !(checkCollisionAt c t p.1 p.2).collision) with
  | some p => ({ c with x := p.1, y := p.2,
                        vx := c.vx * 0.3, vy := c.vy * 0.3 }, .repositioned)
  | none => ({ c with x := c.startX, y := c.startY, vx := 0, vy := 0,
                      angle := c.startAngle, isReversing := false }, .reset)

/-- Modelled from the spec: the wall-normal estimator as the claim words
it — the normalized accumulation of 8-neighborhood offsets (step 2) toward
non-Wall neighbors over **all** offending points when that vector is
nonzero, otherwise the normalized vector from the vehicle center to the
first offending point when nonzero, otherwise `(0, -1)`. -/
noncomputable def claimWallNormal (c : Car) (wallPoints : List (ℤ × ℤ))
    (t : Track) : ℝ × ℝ :=
  match wallPoints with
  | [] => (0, -1)
  | wp0 :: _ =>
      let acc := accumulateNormal t wallPoints
      if acc ≠ (0, 0) then
        let len := Real.sqrt (acc.1 ^ 2 + acc.2 ^ 2)
        (acc.1 / len, acc.2 / len)
      else
        let dx := c.x - (wp0.1 : ℝ)
        let dy := c.y - (wp0.2 : ℝ)
        if (dx, dy) ≠ (0, 0) then
          let len2 := Real.sqrt (dx ^ 2 + dy ^ 2)
          (dx / len2, dy / len2)
        else (0, -1)

/-- The amended wall-normal description: identical to `claimWallNormal`
except that, as in the source (`wall_points[:3]`), only the first three
offending points contribute to the accumulation. -/
noncomputable def amendedWallNormal (c : Car) (wallPoints : List (ℤ × ℤ))
    (t : Track) : ℝ × ℝ :=
  match wallPoints with
  | [] => (0, -1)
  | wp0 :: _ =>
      let acc := accumulateNormal t (wallPoints.take 3)
      if acc ≠ (0, 0) then
        let len := Real.sqrt (acc.1 ^ 2 + acc.2 ^ 2)
        (acc.1 / len, acc.2 / len)
      else
        let dx := c.x - (wp0.1 : ℝ)
        let dy := c.y - (wp0.2 : ℝ)
        if (dx, dy) ≠ (0, 0) then
          let len2 := Real.sqrt (dx ^ 2 + dy ^ 2)
          (dx / len2, dy / len2)
        else (0, -1)

/-! ## Concrete fixtures for witnesses and counterexamples -/

/-- The default tuning store (`WALL_STICKINESS = 0.4`,
`WALL_BOUNCE_FACTOR = 0.6`). -/
noncomputable def gs0 : GameSettings := ⟨0.4, 0.6⟩

/-- The all-false input snapshot. -/
def noInput : InputState := ⟨false, false, false, false⟩

/-- A car with the sports-car stats, at rest at `(100, 100)`, facing the
initial heading `270°`. -/
noncomputable def cexCar : Car :=
  { x := 100, y := 100, startX := 100, startY := 100, vx := 0, vy := 0,
    angle := 270, startAngle := 270, acceleration := 0.3, maxSpeed := 8,
    currentMaxSpeed := 8, friction := 0.95, turnSpeed := 6,
    sizeX := 24, sizeY := 14, onSlowSurface := false, isReversing := false }

/-- A full-screen mask that is drivable everywhere except the single wall
pixel `(100, 100)` — exactly the center the probe never samples. -/
def cexMask : Mask :=
  ⟨SCREEN_WIDTH, SCREEN_HEIGHT,
   fun x y => if x = 100 ∧ y = 100 then wallColor else trackSurfaceColor⟩

/-- The track carrying `cexMask`. -/
def cexTrack : Track := ⟨some cexMask, []⟩

/-- A small mask for the start-position scan-order counterexample: start
markers at `(0, 1)` and `(1, 0)` only. -/
def tinyMask : Mask :=
  ⟨2, 2, fun x y =>
    if (x = 0 ∧ y = 1) ∨ (x = 1 ∧ y = 0) then startPositionColor
    else trackSurfaceColor⟩

/-- The full-size mask of the claim's Scenario C: start-marker pixels at
`(150, 340)` and `(150, 380)` only. -/
def scenarioCMask : Mask :=
  ⟨SCREEN_WIDTH, SCREEN_HEIGHT,
   fun x y =>
    if (x = 150 ∧ y = 340) ∨ (x = 150 ∧ y = 380) then startPositionColor
    else trackSurfaceColor⟩

/-- Mask for the wall-normal counterexample: wall everywhere except the
single non-wall pixel `(52, 50)`. -/
def normalCexMask : Mask :=
  ⟨100, 100, fun x y => if x = 52 ∧ y = 50 then trackSurfaceColor else wallColor⟩

/-- The track carrying `normalCexMask`. -/
def normalCexTrack : Track := ⟨some normalCexMask, []⟩

/-- Offending points for the wall-normal counterexample: three copies of a
point whose whole step-2 neighborhood is wall, then a fourth point with one
non-wall neighbor — the fourth is dropped by `wall_points[:3]`. -/
def normalCexPoints : List (ℤ × ℤ) := [(10, 10), (10, 10), (10, 10), (50, 50)]

/-- The car for the wall-normal counterexample, sitting exactly on the
first offending point so that the center-to-point fallback is degenerate. -/
noncomputable def normalCexCar : Car := { cexCar with x := 10, y := 10 }

/-- A 4×4 mask with a distinctive pixel function for the out-of-bounds
witness. -/
def boundsMask : Mask := ⟨4, 4, fun x y => (x, y, 7)⟩

/-- The track carrying `boundsMask`. -/
def boundsTrack : Track := ⟨some boundsMask, []⟩

/-- A car moving at velocity `(3, 4)` (speed 5) with `currentMaxSpeed = 1`,
violating the clamp bound before the clamp step. -/
noncomputable def fastCar : Car := { cexCar with vx := 3, vy := 4, currentMaxSpeed := 1 }

/-! ## Theorems -/

/-- C8: out-of-bounds coordinates classify as Wall rather than raising an
error, and in-bounds coordinates return the RGB class of the mask pixel. -/
theorem checkCollision_bounds (t : Track) (m : Mask) (x y : ℤ)
    (hm : t.maskSurface = some m) :
    ((x < 0 ∨ (m.width : ℤ) ≤ x ∨ y < 0 ∨ (m.height : ℤ) ≤ y) →
      t.checkCollision x y = wallColor) ∧
    (0 ≤ x → x < (m.width : ℤ) → 0 ≤ y → y < (m.height : ℤ) →
      t.checkCollision x y = m.px x.toNat y.toNat) := by
  unfold Track.checkCollision
  rw [hm]
  constructor
  · intro h
    simp only [if_pos h]
  · intro hx hxw hy hyh
    have hcond : ¬(x < 0 ∨ (m.width : ℤ) ≤ x ∨ y < 0 ∨ (m.height : ℤ) ≤ y) := by
      push_neg
      exact ⟨hx, hxw, hy, hyh⟩
    simp only [if_neg hcond]

/-- Witness for C8 at concrete coordinates: `(-1, 2)` is out of bounds and
classifies as Wall; `(1, 2)` is in bounds and returns the mask pixel. -/
theorem checkCollision_bounds_witness :
    boundsTrack.checkCollision (-1) 2 = wallColor ∧
    boundsTrack.checkCollision 1 2 = (1, 2, 7) := by
  have h := checkCollision_bounds boundsTrack boundsMask (-1) 2 rfl
  have h2 := checkCollision_bounds boundsTrack boundsMask 1 2 rfl
  refine ⟨h.1 (by norm_num), ?_⟩
  have := h2.2 (by norm_num) (by norm_num [boundsMask]) (by norm_num)
    (by norm_num [boundsMask])
  simpa [boundsMask] using this

/-- The speed-clamp step never leaves the speed above the effective
maximum (halved while reversing). -/
theorem clampSpeed_speed_le (c : Car) (h : 0 ≤ c.currentMaxSpeed) :
    speedOf (clampSpeed c) ≤
      (if c.isReversing then c.currentMaxSpeed * REVERSE_SPEED_MULTIPLIER
       else c.currentMaxSpeed) := by
  have h05 : (0 : ℝ) ≤ REVERSE_SPEED_MULTIPLIER := by
    norm_num [REVERSE_SPEED_MULTIPLIER]
  unfold clampSpeed speedOf
  set m := (if c.isReversing then c.currentMaxSpeed * REVERSE_SPEED_MULTIPLIER
            else c.currentMaxSpeed) with hmdef
  have hm : 0 ≤ m := by
    rw [hmdef]; split
    · exact mul_nonneg h h05
    · exact h
  set cs := Real.sqrt (c.vx ^ 2 + c.vy ^ 2) with hcs
  by_cases hgt : cs > m
  · rw [if_pos hgt]
    have hcs0 : 0 < cs := lt_of_le_of_lt hm hgt
    have hsq : (c.vx * (m / cs)) ^ 2 + (c.vy * (m / cs)) ^ 2 =
        (m / cs) ^ 2 * (c.vx ^ 2 + c.vy ^ 2) := by ring
    simp only [hsq]
    rw [Real.sqrt_mul (sq_nonneg _), Real.sqrt_sq_eq_abs,
      abs_of_nonneg (div_nonneg hm hcs0.le), ← hcs,
      div_mul_cancel₀ _ (ne_of_gt hcs0)]
  · rw [if_neg hgt]
    exact le_of_not_lt hgt

/-- C2: immediately after the clamp step of a tick, the speed is at most
`current_max_speed` (times `REVERSE_SPEED_MULTIPLIER` while reversing) —
exactly, in the real-number idealisation of the floats. -/
theorem speed_le_max_after_clamp (c : Car) (inp : InputState)
    (h : 0 ≤ c.currentMaxSpeed) :
    speedOf (tickPhysics c inp) ≤
      (if (preClampPhase c inp).isReversing
       then c.currentMaxSpeed * REVERSE_SPEED_MULTIPLIER
       else c.currentMaxSpeed) := by
  have hpre : (preClampPhase c inp).currentMaxSpeed = c.currentMaxSpeed := rfl
  have hres := clampSpeed_speed_le (preClampPhase c inp) (by rw [hpre]; exact h)
  rw [hpre] at hres
  exact hres

/-- Witness for C2: a car at velocity `(3, 4)` with `current_max_speed = 1`
satisfies the clamp bound after the tick's clamp step. -/
theorem speed_le_max_after_clamp_witness :
    (0 : ℝ) ≤ fastCar.currentMaxSpeed ∧
    speedOf (tickPhysics fastCar noInput) ≤
      (if (preClampPhase fastCar noInput).isReversing
       then fastCar.currentMaxSpeed * REVERSE_SPEED_MULTIPLIER
       else fastCar.currentMaxSpeed) :=
  ⟨by norm_num [fastCar, cexCar],
   speed_le_max_after_clamp fastCar noInput (by norm_num [fastCar, cexCar])⟩

/-- One increasing `turn_speed` adjustment adds the full increment whenever
the current value is at least the increment: the self-referential bound
`turn_speed * max_adjustment` never binds there. -/
theorem adjustTurnSpeed_step (c : Car) (h : turnSpeedIncrement ≤ c.turnSpeed) :
    adjustTurnSpeed c true = { c with turnSpeed := c.turnSpeed + turnSpeedIncrement } := by
  unfold adjustTurnSpeed
  rw [if_pos rfl]
  have hinc : (0 : ℝ) < turnSpeedIncrement := by norm_num [turnSpeedIncrement]
  have : c.turnSpeed + turnSpeedIncrement ≤ c.turnSpeed * maxAdjustment := by
    unfold maxAdjustment
    unfold turnSpeedIncrement at h ⊢
    nlinarith
  rw [min_eq_left this]

/-- Iterating the increasing adjustment grows the value linearly. -/
theorem adjustTurnSpeed_iterate (c : Car) (h : turnSpeedIncrement ≤ c.turnSpeed) :
    ∀ n : ℕ, ((fun d => adjustTurnSpeed d true)^[n] c).turnSpeed =
      c.turnSpeed + n * turnSpeedIncrement := by
  intro n
  induction n generalizing c with
  | zero => simp
  | succ k ih =>
      rw [Function.iterate_succ_apply, adjustTurnSpeed_step c h]
      have hinc : (0 : ℝ) < turnSpeedIncrement := by norm_num [turnSpeedIncrement]
      rw [ih { c with turnSpeed := c.turnSpeed + turnSpeedIncrement }
        (by dsimp only; nlinarith)]
      push_cast
      ring

/-- C3 (code bug): starting from the sports-car baseline `turn_speed = 6`,
thirty-one consecutive increasing adjustments drive the value to `12.2`,
strictly above `2 ×` the original baseline — the clamp is computed against
the *current* value (`self.turn_speed * max_adjustment`), so the claimed
`[0.2×, 2×]`-of-baseline clamp never binds on the way up. -/
theorem adjust_exceeds_double_baseline :
    ((fun d => adjustTurnSpeed d true)^[31] cexCar).turnSpeed = 12.2 ∧
    (2 : ℝ) * cexCar.turnSpeed < 12.2 := by
  constructor
  · rw [adjustTurnSpeed_iterate cexCar (by norm_num [cexCar, turnSpeedIncrement]) 31]
    norm_num [cexCar, turnSpeedIncrement]
  · norm_num [cexCar]

/-- The safe-position search leaves the hull size unchanged. -/
theorem findSafePosition_size (c : Car) (t : Track) :
    (findSafePosition c t).1.sizeX = c.sizeX ∧
    (findSafePosition c t).1.sizeY = c.sizeY := by
  unfold findSafePosition
  split <;> exact ⟨rfl, rfl⟩

/-- The stuck check leaves the hull size unchanged. -/
theorem stuckCheck_size (c : Car) (t : Track) (s : ℝ) :
    (stuckCheck c t s).1.sizeX = c.sizeX ∧
    (stuckCheck c t s).1.sizeY = c.sizeY := by
  unfold stuckCheck
  split
  · exact findSafePosition_size c t
  · exact ⟨rfl, rfl⟩

/-- The reflection step leaves the hull size unchanged. -/
theorem reflectVelocity_size (c1 : Car) (n : ℝ × ℝ) :
    (reflectVelocity c1 n).sizeX = c1.sizeX ∧
    (reflectVelocity c1 n).sizeY = c1.sizeY := by
  unfold reflectVelocity
  dsimp only
  split <;> exact ⟨rfl, rfl⟩

/-- The sliding/stuck body leaves the hull size unchanged. -/
theorem collideBody_size (c1 : Car) (pts : List (ℤ × ℤ)) (t : Track) :
    (collideBody c1 pts t).1.sizeX = c1.sizeX ∧
    (collideBody c1 pts t).1.sizeY = c1.sizeY := by
  unfold collideBody
  dsimp only
  split
  · split
    · constructor
      · rw [(stuckCheck_size _ _ _).1, (reflectVelocity_size _ _).1]
      · rw [(stuckCheck_size _ _ _).2, (reflectVelocity_size _ _).2]
    · constructor
      · show (reflectVelocity _ _).sizeX = c1.sizeX
        rw [(reflectVelocity_size _ _).1]
      · show (reflectVelocity _ _).sizeY = c1.sizeY
        rw [(reflectVelocity_size _ _).2]
  · exact stuckCheck_size _ _ _

/-- The collision handler leaves the hull size unchanged. -/
theorem handleCollision_size (gs : GameSettings) (c : Car)
    (res : CollisionResult) (t : Track) :
    (handleCollision gs c res t).1.sizeX = c.sizeX ∧
    (handleCollision gs c res t).1.sizeY = c.sizeY := by
  unfold handleCollision
  exact collideBody_size _ _ _

/-- The collision resolver leaves the hull size unchanged. -/
theorem resolveMove_size (gs : GameSettings) (c : Car) (t : Track) :
    (resolveMove gs c t).1.sizeX = c.sizeX ∧
    (resolveMove gs c t).1.sizeY = c.sizeY := by
  unfold resolveMove
  dsimp only
  split
  · exact handleCollision_size _ _ _ _
  · split <;> exact ⟨rfl, rfl⟩

/-- The physics phase leaves the hull size unchanged. -/
theorem tickPhysics_size (c : Car) (inp : InputState) :
    (tickPhysics c inp).sizeX = c.sizeX ∧ (tickPhysics c inp).sizeY = c.sizeY := by
  unfold tickPhysics clampSpeed
  dsimp only
  split <;> (try split) <;> exact ⟨rfl, rfl⟩

/-- Clamping onto a nonempty interval lands inside it. -/
theorem clamp_bounds (lo hi v : ℝ) (h : lo ≤ hi) :
    lo ≤ max lo (min hi v) ∧ max lo (min hi v) ≤ hi :=
  ⟨le_max_left _ _, max_le h (min_le_left _ _)⟩

/-- C10: after every tick — whatever the collision outcome — the vehicle
center is clamped to the screen rectangle
`[size_x // 2, SCREEN_WIDTH - size_x // 2] × [size_y // 2, SCREEN_HEIGHT - size_y // 2]`. -/
theorem update_position_within_screen (gs : GameSettings) (c : Car)
    (inp : InputState) (t : Track)
    (hx : c.sizeX ≤ SCREEN_WIDTH) (hy : c.sizeY ≤ SCREEN_HEIGHT) :
    (((c.sizeX / 2 : ℕ) : ℝ) ≤ (Car.update gs c inp t).1.x ∧
      (Car.update gs c inp t).1.x ≤ (SCREEN_WIDTH : ℝ) - ((c.sizeX / 2 : ℕ) : ℝ)) ∧
    (((c.sizeY / 2 : ℕ) : ℝ) ≤ (Car.update gs c inp t).1.y ∧
      (Car.update gs c inp t).1.y ≤ (SCREEN_HEIGHT : ℝ) - ((c.sizeY / 2 : ℕ) : ℝ)) := by
  have hsz : (resolveMove gs (tickPhysics c inp) t).1.sizeX = c.sizeX := by
    rw [(resolveMove_size _ _ _).1, (tickPhysics_size _ _).1]
  have hsz' : (resolveMove gs (tickPhysics c inp) t).1.sizeY = c.sizeY := by
    rw [(resolveMove_size _ _ _).2, (tickPhysics_size _ _).2]
  have hxval : (Car.update gs c inp t).1.x =
      max ((c.sizeX / 2 : ℕ) : ℝ)
        (min ((SCREEN_WIDTH : ℝ) - ((c.sizeX / 2 : ℕ) : ℝ))
          (resolveMove gs (tickPhysics c inp) t).1.x) := by
    show (screenClamp _).x = _
    unfold screenClamp
    rw [hsz]
  have hyval : (Car.update gs c inp t).1.y =
      max ((c.sizeY / 2 : ℕ) : ℝ)
        (min ((SCREEN_HEIGHT : ℝ) - ((c.sizeY / 2 : ℕ) : ℝ))
          (resolveMove gs (tickPhysics c inp) t).1.y) := by
    show (screenClamp _).y = _
    unfold screenClamp
    rw [hsz']
  have hlex : ((c.sizeX / 2 : ℕ) : ℝ) ≤ (SCREEN_WIDTH : ℝ) - ((c.sizeX / 2 : ℕ) : ℝ) := by
    have hx' : c.sizeX ≤ 1280 := hx
    have h2 : c.sizeX / 2 ≤ 640 := by omega
    have h3 : ((c.sizeX / 2 : ℕ) : ℝ) ≤ 640 := by exact_mod_cast h2
    have h4 : ((SCREEN_WIDTH : ℕ) : ℝ) = 1280 := by norm_num [SCREEN_WIDTH]
    rw [h4]
    linarith
  have hley : ((c.sizeY / 2 : ℕ) : ℝ) ≤ (SCREEN_HEIGHT : ℝ) - ((c.sizeY / 2 : ℕ) : ℝ) := by
    have hy' : c.sizeY ≤ 720 := hy
    have h2 : c.sizeY / 2 ≤ 360 := by omega
    have h3 : ((c.sizeY / 2 : ℕ) : ℝ) ≤ 360 := by exact_mod_cast h2
    have h4 : ((SCREEN_HEIGHT : ℕ) : ℝ) = 720 := by norm_num [SCREEN_HEIGHT]
    rw [h4]
    linarith
  rw [hxval, hyval]
  exact ⟨clamp_bounds _ _ _ hlex, clamp_bounds _ _ _ hley⟩

/-- Witness for C10 at the concrete sports car on the single-wall-pixel
track. -/
theorem update_position_within_screen_witness :
    (cexCar.sizeX ≤ SCREEN_WIDTH ∧ cexCar.sizeY ≤ SCREEN_HEIGHT) ∧
    ((((cexCar.sizeX / 2 : ℕ) : ℝ) ≤ (Car.update gs0 cexCar noInput cexTrack).1.x ∧
      (Car.update gs0 cexCar noInput cexTrack).1.x ≤
        (SCREEN_WIDTH : ℝ) - ((cexCar.sizeX / 2 : ℕ) : ℝ)) ∧
     (((cexCar.sizeY / 2 : ℕ) : ℝ) ≤ (Car.update gs0 cexCar noInput cexTrack).1.y ∧
      (Car.update gs0 cexCar noInput cexTrack).1.y ≤
        (SCREEN_HEIGHT : ℝ) - ((cexCar.sizeY / 2 : ℕ) : ℝ))) :=
  ⟨⟨by norm_num [cexCar, SCREEN_WIDTH], by norm_num [cexCar, SCREEN_HEIGHT]⟩,
   update_position_within_screen gs0 cexCar noInput cexTrack
     (by norm_num [cexCar, SCREEN_WIDTH]) (by norm_num [cexCar, SCREEN_HEIGHT])⟩

/-- The inner angle loop equals a `find?` over the mapped candidate list. -/
theorem searchAngles_eq_find (c : Car) (t : Track) (r : ℕ) :
    ∀ l : List ℕ,
      searchAngles c t r l =
        (l.map fun (a : ℕ) => (c.x + Real.cos (radians (a : ℝ)) * (r : ℝ),
                               c.y + Real.sin (radians (a : ℝ)) * (r : ℝ))).find?
          (fun p => !(checkCollisionAt c t p.1 p.2).collision)
  | [] => rfl
  | a :: rest => by
      rw [List.map_cons]
      unfold searchAngles
      dsimp only
      by_cases h : (checkCollisionAt c t (c.x + Real.cos (radians (a : ℝ)) * (r : ℝ))
          (c.y + Real.sin (radians (a : ℝ)) * (r : ℝ))).collision
      · rw [if_pos h, searchAngles_eq_find c t r rest, List.find?_cons_of_neg]
        simp [h]
      · rw [if_neg h, List.find?_cons_of_pos]
        simp [h]

/-- The outer radius loop equals a `find?` over the flattened candidate
list. -/
theorem searchRadii_eq_find (c : Car) (t : Track) :
    ∀ l : List ℕ,
      searchRadii c t l =
        (l.flatMap fun (r : ℕ) =>
          (pyRange 0 360 15).map fun (a : ℕ) =>
            (c.x + Real.cos (radians (a : ℝ)) * (r : ℝ),
             c.y + Real.sin (radians (a : ℝ)) * (r : ℝ))).find?
          (fun p => !(checkCollisionAt c t p.1 p.2).collision)
  | [] => rfl
  | r :: rest => by
      have hstep : searchRadii c t (r :: rest) =
          match searchAngles c t r (pyRange 0 360 15) with
          | some p => some p
          | none => searchRadii c t rest := rfl
      rw [hstep, List.flatMap_cons, List.find?_append, ← searchAngles_eq_find,
        ← searchRadii_eq_find c t rest]
      cases h : searchAngles c t r (pyRange 0 360 15) <;> simp [h, Option.or]

/-- C6: the safe-position search scans radii 5..23 (step 2) crossed with
angles 0..345° (step 15) around the current position, accepts the first
candidate whose probe is clear with velocity damped by 0.3, and — if every
candidate collides — resets the vehicle exactly to its spawn position and
heading with zero velocity and the reversing flag cleared. -/
theorem findSafePosition_eq_claim (c : Car) (t : Track) :
    findSafePosition c t = claimSafeSearch c t := by
  unfold findSafePosition claimSafeSearch resetToStart
  rw [searchRadii_eq_find]
  have hr : pyRange 5 25 2 = [5, 7, 9, 11, 13, 15, 17, 19, 21, 23] := by decide
  have ha : pyRange 0 360 15 =
      [0, 15, 30, 45, 60, 75, 90, 105, 120, 135, 150, 165, 180, 195, 210,
       225, 240, 255, 270, 285, 300, 315, 330, 345] := by decide
  rw [hr, ha]
  rfl

/-- The Euclidean norm of a pair is positive exactly when the pair is
nonzero. -/
theorem sqrt_sum_sq_pos_iff (a b : ℝ) :
    0 < Real.sqrt (a ^ 2 + b ^ 2) ↔ ¬(a = 0 ∧ b = 0) := by
  rw [Real.sqrt_pos]
  constructor
  · rintro h ⟨ha, hb⟩
    rw [ha, hb] at h
    norm_num at h
  · intro h
    rcases not_and_or.mp h with ha | hb
    · have := pow_two_pos_of_ne_zero ha
      nlinarith [sq_nonneg b]
    · have := pow_two_pos_of_ne_zero hb
      nlinarith [sq_nonneg a]

/-- C9 amended: the wall-normal estimator is a total function and equals
the claim's fallback chain with the accumulation taken over the **first
three** offending points only (`wall_points[:3]`), not over all of them. -/
theorem calculateWallNormal_eq_amended (c : Car) (pts : List (ℤ × ℤ))
    (t : Track) : calculateWallNormal c pts t = amendedWallNormal c pts t := by
  unfold calculateWallNormal amendedWallNormal
  cases pts with
  | nil => rfl
  | cons wp0 rest =>
      dsimp only
      set acc := accumulateNormal t ((wp0 :: rest).take 3) with hacc
      have h1 : (Real.sqrt (acc.1 ^ 2 + acc.2 ^ 2) > 0) ↔ acc ≠ (0, 0) := by
        rw [gt_iff_lt, sqrt_sum_sq_pos_iff]
        simp only [ne_eq, Prod.ext_iff]
      set dx := c.x - (wp0.1 : ℝ) with hdx
      set dy := c.y - (wp0.2 : ℝ) with hdy
      have h2 : (Real.sqrt (dx ^ 2 + dy ^ 2) > 0) ↔ (dx, dy) ≠ ((0 : ℝ), (0 : ℝ)) := by
        rw [gt_iff_lt, sqrt_sum_sq_pos_iff]
        simp only [ne_eq, Prod.ext_iff]
      by_cases hz : acc ≠ (0, 0)
      · rw [if_pos (h1.mpr hz), if_pos hz]
      · rw [if_neg (by rw [h1]; exact hz), if_neg hz]
        by_cases hz2 : (dx, dy) ≠ ((0 : ℝ), (0 : ℝ))
        · rw [if_pos (h2.mpr hz2), if_pos hz2]
        · rw [if_neg (by rw [h2]; exact hz2), if_neg hz2]

/-- C9 counterexample: with offending points `[(10,10), (10,10), (10,10),
(50,50)]` on a track whose only non-wall pixel is `(52, 50)`, the code's
estimator (which drops the fourth point) returns the default `(0, -1)`
while the claim's all-points accumulation yields `(1, 0)`. -/
theorem wallNormal_truncation_counterexample :
    calculateWallNormal normalCexCar normalCexPoints normalCexTrack = (0, -1) ∧
    claimWallNormal normalCexCar normalCexPoints normalCexTrack = (1, 0) ∧
    ((0 : ℝ), (-1 : ℝ)) ≠ ((1 : ℝ), (0 : ℝ)) := by
  have hwall : ∀ x y : ℤ, ¬(x = 52 ∧ y = 50) →
      normalCexTrack.checkCollision x y = wallColor := by
    intro x y h
    unfold Track.checkCollision normalCexTrack normalCexMask
    dsimp only
    split
    · rfl
    · rename_i hb
      push_neg at hb
      rw [if_neg]
      rintro ⟨h1, h2⟩
      refine h ⟨?_, ?_⟩ <;> omega
  have hopen : normalCexTrack.checkCollision 52 50 = trackSurfaceColor := by
    unfold Track.checkCollision normalCexTrack normalCexMask
    dsimp only
    rw [if_neg (by norm_num), if_pos (by decide)]
  have hacc3 : accumulateNormal normalCexTrack (normalCexPoints.take 3) = (0, 0) := by
    unfold normalCexPoints accumulateNormal neighborOffsets
    norm_num [List.foldl_cons, List.foldl_nil, List.take,
      (show trackSurfaceColor ≠ wallColor by decide),
      hwall 8 8 (by norm_num), hwall 8 10 (by norm_num),
      hwall 8 12 (by norm_num), hwall 10 8 (by norm_num),
      hwall 10 12 (by norm_num), hwall 12 8 (by norm_num),
      hwall 12 10 (by norm_num), hwall 12 12 (by norm_num)]
  have hacc4 : accumulateNormal normalCexTrack normalCexPoints = (1, 0) := by
    unfold normalCexPoints accumulateNormal neighborOffsets
    norm_num [List.foldl_cons, List.foldl_nil,
      (show trackSurfaceColor ≠ wallColor by decide),
      hwall 8 8 (by norm_num), hwall 8 10 (by norm_num),
      hwall 8 12 (by norm_num), hwall 10 8 (by norm_num),
      hwall 10 12 (by norm_num), hwall 12 8 (by norm_num),
      hwall 12 10 (by norm_num), hwall 12 12 (by norm_num),
      hwall 48 48 (by norm_num), hwall 48 50 (by norm_num),
      hwall 48 52 (by norm_num), hwall 50 48 (by norm_num),
      hwall 50 52 (by norm_num), hwall 52 48 (by norm_num),
      hwall 52 52 (by norm_num), hopen]
  refine ⟨?_, ?_, by norm_num⟩
  · show calculateWallNormal normalCexCar ((10, 10) :: [(10, 10), (10, 10), (50, 50)])
        normalCexTrack = (0, -1)
    unfold calculateWallNormal
    dsimp only
    rw [show ((10, 10) :: [(10, 10), (10, 10), (50, 50)] : List (ℤ × ℤ)) =
      normalCexPoints from rfl, hacc3]
    norm_num [normalCexCar, cexCar, Real.sqrt_zero]
  · show claimWallNormal normalCexCar ((10, 10) :: [(10, 10), (10, 10), (50, 50)])
        normalCexTrack = (1, 0)
    unfold claimWallNormal
    dsimp only
    rw [show ((10, 10) :: [(10, 10), (10, 10), (50, 50)] : List (ℤ × ℤ)) =
      normalCexPoints from rfl, hacc4]
    norm_num [Real.sqrt_one]

/-- Membership in the start-position scan: exactly the in-bounds pixels
with the start-marker color. -/
theorem mem_findStartPositions (m : Mask) (p : ℕ × ℕ) :
    p ∈ findStartPositions m ↔
      p.1 < m.width ∧ p.2 < m.height ∧ m.px p.1 p.2 = startPositionColor := by
  unfold findStartPositions
  simp only [List.mem_flatMap, List.mem_filterMap, List.mem_range,
    Option.ite_none_right_eq_some, Option.some.injEq]
  constructor
  · rintro ⟨x, hx, y, hy, hcol, rfl⟩
    exact ⟨hx, hy, hcol⟩
  · rintro ⟨h1, h2, h3⟩
    exact ⟨p.1, h1, p.2, h2, h3, rfl⟩

/-- The start-position scan emits coordinates in strictly increasing
column-major order. -/
theorem pairwise_findStartPositions (m : Mask) :
    (findStartPositions m).Pairwise colexLt := by
  unfold findStartPositions
  rw [List.pairwise_flatMap]
  constructor
  · intro x _
    refine List.Pairwise.filterMap _ ?_ (List.pairwise_lt_range m.height)
    intro y y' hyy' q hq q' hq'
    rw [Option.mem_def, Option.ite_none_right_eq_some, Option.some.injEq] at hq hq'
    rw [← hq.2, ← hq'.2]
    exact Or.inr ⟨rfl, hyy'⟩
  · refine (List.pairwise_lt_range m.width).imp ?_
    intro x x' hxx' q hq q' hq'
    rw [List.mem_filterMap] at hq hq'
    obtain ⟨y, _, hy⟩ := hq
    obtain ⟨y', _, hy'⟩ := hq'
    rw [Option.ite_none_right_eq_some, Option.some.injEq] at hy hy'
    rw [← hy.2, ← hy'.2]
    exact Or.inl hxx'

/-- A `colexLt`-sorted list whose members are exactly `{a, b}` with
`colexLt a b` is `[a, b]`. -/
theorem pairwise_two_mem_eq {l : List (ℕ × ℕ)} {a b : ℕ × ℕ}
    (hpair : l.Pairwise colexLt) (hmem : ∀ p, p ∈ l ↔ p = a ∨ p = b)
    (hab : colexLt a b) : l = [a, b] := by
  have hirr : ∀ p : ℕ × ℕ, ¬colexLt p p := by
    intro p hp
    rcases hp with h | ⟨_, h⟩ <;> omega
  have hasym : ¬colexLt b a := by
    intro h
    rcases hab with h1 | ⟨h1, h1'⟩ <;> rcases h with h2 | ⟨h2, h2'⟩ <;> omega
  cases l with
  | nil => exact absurd ((hmem a).mpr (Or.inl rfl)) (List.not_mem_nil a)
  | cons x l' =>
    cases l' with
    | nil =>
        have hx : a = x := by simpa using (hmem a).mpr (Or.inl rfl)
        have hb : b = x := by simpa using (hmem b).mpr (Or.inr rfl)
        exact absurd hab (by rw [hx, hb]; exact hirr x)
    | cons y l'' =>
        rw [List.pairwise_cons] at hpair
        obtain ⟨hxall, hpair'⟩ := hpair
        rw [List.pairwise_cons] at hpair'
        obtain ⟨hyall, _⟩ := hpair'
        have hxy : colexLt x y := hxall y (by simp)
        have hxmem := (hmem x).mp (by simp)
        have hymem := (hmem y).mp (by simp)
        have hxa : x = a := by
          rcases hxmem with h | h
          · exact h
          · rcases hymem with h2 | h2
            · rw [h, h2] at hxy
              exact absurd hxy hasym
            · rw [h, h2] at hxy
              exact absurd hxy (hirr b)
        have hyb : y = b := by
          rcases hymem with h2 | h2
          · rw [hxa, h2] at hxy
            exact absurd hxy (hirr a)
          · exact h2
        have hl'' : l'' = [] := by
          cases l'' with
          | nil => rfl
          | cons r l''' =>
              have hr := (hmem r).mp (by simp)
              have hyr : colexLt y r := hyall r (by simp)
              rcases hr with h | h
              · rw [hyb, h] at hyr
                exact absurd hyr hasym
              · rw [hyb, h] at hyr
                exact absurd hyr (hirr b)
        rw [hxa, hyb, hl'']

/-- C5 counterexample: on a mask with start markers at `(0, 1)` and
`(1, 0)` only, the scan returns `[(0, 1), (1, 0)]` (column-major), while a
row-major raster scan would return `[(1, 0), (0, 1)]`. -/
theorem startPositions_not_row_major :
    findStartPositions tinyMask = [(0, 1), (1, 0)] ∧
    rowMajorScan tinyMask = [(1, 0), (0, 1)] ∧
    findStartPositions tinyMask ≠ rowMajorScan tinyMask := by decide

/-- C5 amended: `startPositions()` lists the StartMarker pixels in
column-major scan order (`x` outer, `y` inner) — the in-bounds marker
pixels, ordered by `colexLt`; Scenario C (markers only at `(150, 340)` and
`(150, 380)`) still yields exactly `[(150, 340), (150, 380)]`. -/
theorem findStartPositions_column_major (m : Mask) (p : ℕ × ℕ) :
    (findStartPositions m).Pairwise colexLt ∧
    (p ∈ findStartPositions m ↔
      p.1 < m.width ∧ p.2 < m.height ∧ m.px p.1 p.2 = startPositionColor) ∧
    findStartPositions scenarioCMask = [(150, 340), (150, 380)] := by
  refine ⟨pairwise_findStartPositions m, mem_findStartPositions m p, ?_⟩
  refine pairwise_two_mem_eq (pairwise_findStartPositions scenarioCMask) ?_
    (Or.inr ⟨rfl, by norm_num⟩)
  intro q
  rw [mem_findStartPositions]
  constructor
  · rintro ⟨h1, h2, h3⟩
    by_cases hc : (q.1 = 150 ∧ q.2 = 340) ∨ (q.1 = 150 ∧ q.2 = 380)
    · rcases hc with ⟨ha, hb⟩ | ⟨ha, hb⟩
      · exact Or.inl (Prod.ext_iff.mpr ⟨ha, hb⟩)
      · exact Or.inr (Prod.ext_iff.mpr ⟨ha, hb⟩)
    · exfalso
      unfold scenarioCMask at h3
      dsimp only at h3
      rw [if_neg hc] at h3
      exact absurd h3 (by decide)
  · rintro (rfl | rfl)
    · refine ⟨by norm_num [scenarioCMask, SCREEN_WIDTH],
        by norm_num [scenarioCMask, SCREEN_HEIGHT], ?_⟩
      unfold scenarioCMask
      dsimp only
      rw [if_pos (Or.inl ⟨rfl, rfl⟩)]
    · refine ⟨by norm_num [scenarioCMask, SCREEN_WIDTH],
        by norm_num [scenarioCMask, SCREEN_HEIGHT], ?_⟩
      unfold scenarioCMask
      dsimp only
      rw [if_pos (Or.inr ⟨rfl, rfl⟩)]

/-- Witness for C5 amended, instantiated at the Scenario C mask and the
pixel `(150, 340)`. -/
theorem findStartPositions_column_major_witness :
    findStartPositions scenarioCMask = [(150, 340), (150, 380)] ∧
    ((150, 340) ∈ findStartPositions scenarioCMask ↔
      150 < scenarioCMask.width ∧ 340 < scenarioCMask.height ∧
      scenarioCMask.px 150 340 = startPositionColor) :=
  ⟨(findStartPositions_column_major scenarioCMask (150, 340)).2.2,
   (findStartPositions_column_major scenarioCMask (150, 340)).2.1⟩

/-- Both start circles lie inside the outer track ellipse. -/
theorem startCircles_subset_outer (x y : ℕ)
    (h : inCircle 150 340 5 x y = true ∨ inCircle 150 380 5 x y = true) :
    inEllipse 640 360 540 260 x y = true := by
  simp only [inCircle, inEllipse, decide_eq_true_eq] at h ⊢
  rcases h with h | h
  · have ha1 : -5 ≤ (x : ℤ) - 150 := by nlinarith [sq_nonneg ((y : ℤ) - 340)]
    have ha2 : (x : ℤ) - 150 ≤ 5 := by nlinarith [sq_nonneg ((y : ℤ) - 340)]
    have hb1 : -5 ≤ (y : ℤ) - 340 := by nlinarith [sq_nonneg ((x : ℤ) - 150)]
    have hb2 : (y : ℤ) - 340 ≤ 5 := by nlinarith [sq_nonneg ((x : ℤ) - 150)]
    have h1 : ((x : ℤ) - 640) ^ 2 ≤ 245025 := by nlinarith
    have h2 : ((y : ℤ) - 360) ^ 2 ≤ 625 := by nlinarith
    nlinarith [h1, h2]
  · have ha1 : -5 ≤ (x : ℤ) - 150 := by nlinarith [sq_nonneg ((y : ℤ) - 380)]
    have ha2 : (x : ℤ) - 150 ≤ 5 := by nlinarith [sq_nonneg ((y : ℤ) - 380)]
    have hb1 : -5 ≤ (y : ℤ) - 380 := by nlinarith [sq_nonneg ((x : ℤ) - 150)]
    have hb2 : (y : ℤ) - 380 ≤ 5 := by nlinarith [sq_nonneg ((x : ℤ) - 150)]
    have h1 : ((x : ℤ) - 640) ^ 2 ≤ 245025 := by nlinarith
    have h2 : ((y : ℤ) - 360) ^ 2 ≤ 625 := by nlinarith
    nlinarith [h1, h2]

/-- The inner (hole) ellipse lies inside the outer track ellipse. -/
theorem inner_subset_outer (x y : ℕ)
    (h : inEllipse 640 360 440 160 x y = true) :
    inEllipse 640 360 540 260 x y = true := by
  simp only [inEllipse, decide_eq_true_eq] at h ⊢
  nlinarith [sq_nonneg ((x : ℤ) - 640), sq_nonneg ((y : ℤ) - 360)]

/-- The start circles are disjoint from the inner (hole) ellipse. -/
theorem startCircles_not_inner (x y : ℕ)
    (h : inCircle 150 340 5 x y = true ∨ inCircle 150 380 5 x y = true) :
    inEllipse 640 360 440 160 x y = false := by
  simp only [inCircle, decide_eq_true_eq] at h
  simp only [inEllipse, decide_eq_false_iff_not, decide_eq_true_eq]
  intro hc
  have hx : (x : ℤ) ≤ 155 := by
    rcases h with h | h
    · nlinarith [sq_nonneg ((y : ℤ) - 340)]
    · nlinarith [sq_nonneg ((y : ℤ) - 380)]
  have h485 : (0 : ℤ) ≤ 640 - (x : ℤ) - 485 := by linarith
  have h1125 : (0 : ℤ) ≤ 640 - (x : ℤ) + 485 := by linarith
  nlinarith [sq_nonneg ((y : ℤ) - 360), mul_nonneg h485 h1125]

/-- No pixel of the fallback mask has the SlowDown color. -/
theorem no_slowdown_pixel (x y : ℕ) : fallbackMaskAt x y ≠ slowDownColor := by
  unfold fallbackMaskAt
  split_ifs <;> decide

/-- C4 counterexample: the procedural fallback mask contains no
SlowDown-classified pixel at all, so the "at least one SlowDown patch"
part of the claim fails. -/
theorem fallback_no_slowdown : ¬fallbackHasSlowDown := by
  rintro ⟨x, y, -, -, h⟩
  exact no_slowdown_pixel x y h

/-- Everything outside the outer ellipse (in particular the screen
boundary) is Wall in the fallback mask. -/
theorem fallback_outside_outer_wall (x y : ℕ)
    (h : inEllipse 640 360 540 260 x y = false) :
    fallbackMaskAt x y = wallColor := by
  have hc : ¬(inCircle 150 340 5 x y = true ∨ inCircle 150 380 5 x y = true) := by
    intro hcc
    have hcon := startCircles_subset_outer x y hcc
    rw [h] at hcon
    exact Bool.noConfusion hcon
  have hi : ¬inEllipse 640 360 440 160 x y = true := by
    intro hii
    have hcon := inner_subset_outer x y hii
    rw [h] at hcon
    exact Bool.noConfusion hcon
  unfold fallbackMaskAt
  rw [if_neg hc, if_neg hi, if_neg (by rw [h]; exact Bool.noConfusion)]

/-- The inner hole is Wall in the fallback mask. -/
theorem fallback_inner_wall (x y : ℕ)
    (h : inEllipse 640 360 440 160 x y = true) :
    fallbackMaskAt x y = wallColor := by
  have hc : ¬(inCircle 150 340 5 x y = true ∨ inCircle 150 380 5 x y = true) := by
    intro hcc
    have hcon := startCircles_not_inner x y hcc
    rw [h] at hcon
    exact Bool.noConfusion hcon
  unfold fallbackMaskAt
  rw [if_neg hc, if_pos h]

/-- The annulus between the ellipses, away from the start circles, is
Drivable in the fallback mask. -/
theorem fallback_ring_drivable (x y : ℕ)
    (ho : inEllipse 640 360 540 260 x y = true)
    (hi : inEllipse 640 360 440 160 x y = false)
    (hc1 : inCircle 150 340 5 x y = false)
    (hc2 : inCircle 150 380 5 x y = false) :
    fallbackMaskAt x y = trackSurfaceColor := by
  unfold fallbackMaskAt
  rw [if_neg (by rw [hc1, hc2]; rintro (h | h) <;> exact Bool.noConfusion h),
    if_neg (by rw [hi]; exact Bool.noConfusion), if_pos ho]

/-- C4 amended: the fallback generator yields a Wall screen boundary, a
Wall inner hole, a Drivable annulus ring between them, exactly two
StartMarker points — but **no** SlowDown patch. -/
theorem fallback_track_structure :
    fallbackTrack.startPositions = [(150, 340), (150, 380)] ∧
    (∀ x y : ℕ, inEllipse 640 360 540 260 x y = false →
      fallbackMaskAt x y = wallColor) ∧
    (∀ x y : ℕ, inEllipse 640 360 440 160 x y = true →
      fallbackMaskAt x y = wallColor) ∧
    (∀ x y : ℕ, inEllipse 640 360 540 260 x y = true →
      inEllipse 640 360 440 160 x y = false →
      inCircle 150 340 5 x y = false → inCircle 150 380 5 x y = false →
      fallbackMaskAt x y = trackSurfaceColor) ∧
    (∀ x : ℕ, fallbackMaskAt x 0 = wallColor ∧ fallbackMaskAt x 719 = wallColor) ∧
    (∀ y : ℕ, fallbackMaskAt 0 y = wallColor ∧ fallbackMaskAt 1279 y = wallColor) ∧
    fallbackMaskAt 150 340 = startPositionColor ∧
    fallbackMaskAt 150 360 = trackSurfaceColor ∧
    ¬fallbackHasSlowDown := by
  refine ⟨rfl, fallback_outside_outer_wall, fallback_inner_wall,
    fallback_ring_drivable, ?_, ?_, by decide, by decide,
    fun ⟨x, y, _, _, h⟩ => no_slowdown_pixel x y h⟩
  · intro x
    constructor
    · refine fallback_outside_outer_wall x 0 ?_
      simp only [inEllipse, decide_eq_false_iff_not, decide_eq_true_eq]
      intro hcon
      norm_num at hcon
      nlinarith [sq_nonneg ((x : ℤ) - 640)]
    · refine fallback_outside_outer_wall x 719 ?_
      simp only [inEllipse, decide_eq_false_iff_not, decide_eq_true_eq]
      intro hcon
      norm_num at hcon
      nlinarith [sq_nonneg ((x : ℤ) - 640)]
  · intro y
    constructor
    · refine fallback_outside_outer_wall 0 y ?_
      simp only [inEllipse, decide_eq_false_iff_not, decide_eq_true_eq]
      intro hcon
      norm_num at hcon
      nlinarith [sq_nonneg ((y : ℤ) - 360)]
    · refine fallback_outside_outer_wall 1279 y ?_
      simp only [inEllipse, decide_eq_false_iff_not, decide_eq_true_eq]
      intro hcon
      norm_num at hcon
      nlinarith [sq_nonneg ((y : ℤ) - 360)]

/-- Witness for C4 amended at concrete pixels: `(0, 0)` boundary Wall,
`(640, 360)` inner-hole Wall, `(150, 360)` ring Drivable. -/
theorem fallback_track_structure_witness :
    fallbackMaskAt 0 0 = wallColor ∧ fallbackMaskAt 640 360 = wallColor ∧
    fallbackMaskAt 150 360 = trackSurfaceColor :=
  ⟨fallback_track_structure.2.1 0 0 (by decide),
   fallback_track_structure.2.2.1 640 360 (by decide),
   fallback_track_structure.2.2.2.1 150 360 (by decide) (by decide) (by decide)
     (by decide)⟩

/-- The collision probe depends only on the car's heading and hull size. -/
theorem checkCollisionAt_congr (c c' : Car) (t : Track) (nx ny : ℝ)
    (ha : c'.angle = c.angle) (hsx : c'.sizeX = c.sizeX)
    (hsy : c'.sizeY = c.sizeY) :
    checkCollisionAt c' t nx ny = checkCollisionAt c t nx ny := by
  unfold checkCollisionAt collisionPointsWorld
  rw [ha, hsx, hsy]

/-- The reflection step preserves the heading. -/
theorem reflectVelocity_angle (c1 : Car) (n : ℝ × ℝ) :
    (reflectVelocity c1 n).angle = c1.angle := by
  unfold reflectVelocity
  dsimp only
  split <;> rfl

/-- A candidate returned by the angle loop has a collision-free probe. -/
theorem searchAngles_clear (c : Car) (t : Track) (r : ℕ) :
    ∀ l : List ℕ, ∀ p : ℝ × ℝ, searchAngles c t r l = some p →
      (checkCollisionAt c t p.1 p.2).collision = false
  | [], p, h => by exact absurd h (by unfold searchAngles; simp)
  | a :: rest, p, h => by
      unfold searchAngles at h
      dsimp only at h
      by_cases hcol : (checkCollisionAt c t
          (c.x + Real.cos (radians (a : ℝ)) * (r : ℝ))
          (c.y + Real.sin (radians (a : ℝ)) * (r : ℝ))).collision
      · rw [if_pos hcol] at h
        exact searchAngles_clear c t r rest p h
      · rw [if_neg hcol] at h
        injection h with h'
        rw [← h']
        simpa using hcol

/-- A candidate returned by the radius loop has a collision-free probe. -/
theorem searchRadii_clear (c : Car) (t : Track) :
    ∀ l : List ℕ, ∀ p : ℝ × ℝ, searchRadii c t l = some p →
      (checkCollisionAt c t p.1 p.2).collision = false
  | [], p, h => by exact absurd h (by unfold searchRadii; simp)
  | r :: rest, p, h => by
      have hstep : searchRadii c t (r :: rest) =
          match searchAngles c t r (pyRange 0 360 15) with
          | some q => some q
          | none => searchRadii c t rest := rfl
      rw [hstep] at h
      cases hsa : searchAngles c t r (pyRange 0 360 15) with
      | some q =>
          rw [hsa] at h
          injection h with h'
          rw [← h']
          exact searchAngles_clear c t r _ q hsa
      | none =>
          rw [hsa] at h
          exact searchRadii_clear c t rest p h

/-- The safe-position search yields only `repositioned` or `reset`. -/
theorem findSafePosition_outcome (c : Car) (t : Track) :
    (findSafePosition c t).2 = Outcome.repositioned ∨
    (findSafePosition c t).2 = Outcome.reset := by
  unfold findSafePosition
  split
  · exact Or.inl rfl
  · exact Or.inr rfl

/-- A repositioned car sits at a probe-clear position. -/
theorem findSafePosition_clear (c : Car) (t : Track)
    (h : (findSafePosition c t).2 = Outcome.repositioned) :
    (checkCollisionAt (findSafePosition c t).1 t (findSafePosition c t).1.x
      (findSafePosition c t).1.y).collision = false := by
  unfold findSafePosition at h ⊢
  cases hsr : searchRadii c t (pyRange 5 25 2) with
  | none =>
      rw [hsr] at h
      simp at h
  | some p =>
      dsimp only
      show (checkCollisionAt
        { c with x := p.1, y := p.2, vx := c.vx * 0.3, vy := c.vy * 0.3 }
        t p.1 p.2).collision = false
      show (checkCollisionAt c t p.1 p.2).collision = false
      exact searchRadii_clear c t _ p hsr

/-- The stuck check yields only `stayed`, `repositioned` or `reset`. -/
theorem stuckCheck_outcome (c : Car) (t : Track) (s : ℝ) :
    (stuckCheck c t s).2 = Outcome.stayed ∨
    (stuckCheck c t s).2 = Outcome.repositioned ∨
    (stuckCheck c t s).2 = Outcome.reset := by
  unfold stuckCheck
  split
  · rcases findSafePosition_outcome c t with h | h
    · exact Or.inr (Or.inl h)
    · exact Or.inr (Or.inr h)
  · exact Or.inl rfl

/-- If the stuck check ends in an accepting outcome, the final position has
a collision-free probe. -/
theorem stuckCheck_clear (c : Car) (t : Track) (s : ℝ)
    (h : (stuckCheck c t s).2 = Outcome.clear ∨
         (stuckCheck c t s).2 = Outcome.sliding ∨
         (stuckCheck c t s).2 = Outcome.repositioned) :
    (checkCollisionAt (stuckCheck c t s).1 t (stuckCheck c t s).1.x
      (stuckCheck c t s).1.y).collision = false := by
  unfold stuckCheck at h ⊢
  by_cases hcond : ((checkCollisionAt c t c.x c.y).collision = true) ∨ s < 0.3
  · rw [if_pos hcond] at h ⊢
    rcases h with h | h | h
    · rcases findSafePosition_outcome c t with h2 | h2 <;>
        (rw [h] at h2; exact absurd h2 (by simp))
    · rcases findSafePosition_outcome c t with h2 | h2 <;>
        (rw [h] at h2; exact absurd h2 (by simp))
    · exact findSafePosition_clear c t h
  · rw [if_neg hcond] at h ⊢
    dsimp only
    push_neg at hcond
    simpa using hcond.1

/-- If the sliding/stuck body ends in an accepting outcome, the final
position has a collision-free probe. -/
theorem collideBody_clear (c1 : Car) (pts : List (ℤ × ℤ)) (t : Track)
    (h : (collideBody c1 pts t).2 = Outcome.clear ∨
         (collideBody c1 pts t).2 = Outcome.sliding ∨
         (collideBody c1 pts t).2 = Outcome.repositioned) :
    (checkCollisionAt (collideBody c1 pts t).1 t (collideBody c1 pts t).1.x
      (collideBody c1 pts t).1.y).collision = false := by
  unfold collideBody at h ⊢
  dsimp only at h ⊢
  by_cases hs : Real.sqrt (c1.vx ^ 2 + c1.vy ^ 2) > 0.1
  · rw [if_pos hs] at h ⊢
    set n := calculateWallNormal c1 pts t with hn
    set c2 := reflectVelocity c1 n with hc2
    by_cases hcol : (checkCollisionAt c2 t (c2.x + n.1 * 3)
        (c2.y + n.2 * 3)).collision = true
    · rw [if_pos hcol] at h ⊢
      exact stuckCheck_clear c2 t _ h
    · rw [if_neg hcol] at h ⊢
      dsimp only
      show (checkCollisionAt c2 t (c2.x + n.1 * 3) (c2.y + n.2 * 3)).collision = false
      simpa using hcol
  · rw [if_neg hs] at h ⊢
    exact stuckCheck_clear c1 t _ h

/-- C1 amended: whenever a tick's resolver accepts a position through the
Clear, Sliding, or Repositioned outcome, the five hull probe points at the
accepted position (evaluated before the final screen-bounds failsafe
clamp) all classify as non-Wall — the probe covers the hull outline, not
the vehicle center. -/
theorem accepted_position_probe_clear (gs : GameSettings) (c : Car)
    (t : Track)
    (h : (resolveMove gs c t).2 = Outcome.clear ∨
         (resolveMove gs c t).2 = Outcome.sliding ∨
         (resolveMove gs c t).2 = Outcome.repositioned) :
    (checkCollisionAt (resolveMove gs c t).1 t (resolveMove gs c t).1.x
      (resolveMove gs c t).1.y).collision = false := by
  unfold resolveMove at h ⊢
  dsimp only at h ⊢
  by_cases hres : (checkCollisionAt c t (c.x + c.vx) (c.y + c.vy)).collision = true
  · rw [if_pos hres] at h ⊢
    unfold handleCollision at h ⊢
    exact collideBody_clear _ _ t h
  · rw [if_neg hres] at h ⊢
    by_cases hsd : t.checkCollision (pyInt (c.x + c.vx)) (pyInt (c.y + c.vy)) =
        slowDownColor
    · rw [if_pos hsd]
      dsimp only
      show (checkCollisionAt c t (c.x + c.vx) (c.y + c.vy)).collision = false
      simpa using hres
    · rw [if_neg hsd]
      dsimp only
      show (checkCollisionAt c t (c.x + c.vx) (c.y + c.vy)).collision = false
      simpa using hres

/-- `cos 270° = 0`. -/
theorem cos_radians_270 : Real.cos (radians 270) = 0 := by
  have h : radians 270 = Real.pi + Real.pi / 2 := by
    unfold radians; ring
  rw [h, Real.cos_add, Real.cos_pi, Real.sin_pi, Real.cos_pi_div_two,
    Real.sin_pi_div_two]
  ring

/-- `sin 270° = -1`. -/
theorem sin_radians_270 : Real.sin (radians 270) = -1 := by
  have h : radians 270 = Real.pi + Real.pi / 2 := by
    unfold radians; ring
  rw [h, Real.sin_add, Real.cos_pi, Real.sin_pi, Real.cos_pi_div_two,
    Real.sin_pi_div_two]
  ring

/-- `int()` of an integer-valued real is that integer. -/
theorem pyInt_intCast (n : ℤ) : pyInt ((n : ℤ) : ℝ) = n := by
  unfold pyInt
  split <;> simp

/-- Convenience form of `pyInt_intCast` for numeral arguments. -/
theorem pyInt_eval {r : ℝ} {n : ℤ} (h : r = (n : ℝ)) : pyInt r = n := by
  rw [h]
  exact pyInt_intCast n

/-- The single wall pixel of `cexMask` sits at the car center. -/
theorem center_wall : cexTrack.checkCollision 100 100 = wallColor := by
  unfold Track.checkCollision cexTrack cexMask
  dsimp only
  rw [if_neg (by norm_num [SCREEN_WIDTH, SCREEN_HEIGHT]), if_pos (by decide)]

/-- Everywhere else `cexMask` is drivable. -/
theorem cex_nonwall (x y : ℤ) (hx0 : 0 ≤ x) (hx1 : x < 1280) (hy0 : 0 ≤ y)
    (hy1 : y < 720) (h : ¬(x = 100 ∧ y = 100)) :
    cexTrack.checkCollision x y = trackSurfaceColor := by
  unfold Track.checkCollision cexTrack cexMask
  dsimp only
  rw [if_neg, if_neg]
  · rintro ⟨h1, h2⟩
    refine h ⟨?_, ?_⟩ <;> omega
  · push_neg
    refine ⟨hx0, ?_, hy0, ?_⟩
    · norm_num [SCREEN_WIDTH]
      exact hx1
    · norm_num [SCREEN_HEIGHT]
      exact hy1

/-- The five world probe points of the resting car at `(100, 100)` with
heading 270°. -/
theorem cex_probe_points :
    collisionPointsWorld cexCar 100 100 =
      [(100, 88), (102, 78), (112, 78), (112, 98), (102, 98)] := by
  unfold collisionPointsWorld collisionPoints
  dsimp only
  rw [show cexCar.angle = (270 : ℝ) from rfl, show cexCar.sizeX = 24 from rfl,
    show cexCar.sizeY = 14 from rfl, cos_radians_270, sin_radians_270]
  norm_num
  refine ⟨⟨?_, ?_⟩, ⟨?_, ?_⟩, ⟨?_, ?_⟩, ⟨?_, ?_⟩, ⟨?_, ?_⟩⟩ <;>
    exact pyInt_eval (by norm_num)

/-- The resting car's probe at `(100, 100)` is collision-free: the five
hull points all miss the single center wall pixel. -/
theorem cex_probe_clear :
    (checkCollisionAt cexCar cexTrack 100 100).collision = false := by
  unfold checkCollisionAt
  dsimp only
  rw [cex_probe_points]
  have e1 := cex_nonwall 100 88 (by norm_num) (by norm_num) (by norm_num)
    (by norm_num) (by norm_num)
  have e2 := cex_nonwall 102 78 (by norm_num) (by norm_num) (by norm_num)
    (by norm_num) (by norm_num)
  have e3 := cex_nonwall 112 78 (by norm_num) (by norm_num) (by norm_num)
    (by norm_num) (by norm_num)
  have e4 := cex_nonwall 112 98 (by norm_num) (by norm_num) (by norm_num)
    (by norm_num) (by norm_num)
  have e5 := cex_nonwall 102 98 (by norm_num) (by norm_num) (by norm_num)
    (by norm_num) (by norm_num)
  simp [List.filter_cons, List.filter_nil, e1, e2, e3, e4, e5,
    (show trackSurfaceColor ≠ wallColor by decide)]

/-- A full physics phase with no input at rest leaves the car unchanged. -/
theorem tickPhysics_eval : tickPhysics cexCar noInput = cexCar := by
  unfold tickPhysics clampSpeed preClampPhase noInput
  dsimp only
  norm_num [cexCar, Real.sqrt_zero]

/-- The resolver accepts the resting car's position with outcome Clear —
even though the car center itself sits on the wall pixel. -/
theorem resolveMove_eval :
    resolveMove gs0 cexCar cexTrack = (cexCar, Outcome.clear) := by
  unfold resolveMove
  dsimp only
  rw [show cexCar.x + cexCar.vx = (100 : ℝ) from by norm_num [cexCar],
    show cexCar.y + cexCar.vy = (100 : ℝ) from by norm_num [cexCar],
    cex_probe_clear, if_neg (by simp),
    pyInt_eval (show (100 : ℝ) = ((100 : ℤ) : ℝ) by norm_num), center_wall,
    if_neg (by decide)]
  simp [cexCar]

/-- One full tick of the resting car on `cexTrack`. -/
theorem update_eval :
    Car.update gs0 cexCar noInput cexTrack = (cexCar, Outcome.clear) := by
  unfold Car.update
  dsimp only
  rw [tickPhysics_eval, resolveMove_eval]
  dsimp only
  unfold screenClamp
  norm_num [cexCar, SCREEN_WIDTH, SCREEN_HEIGHT, min_def, max_def]

/-- C1 counterexample: a tick that ends with the Clear outcome while the
accepted vehicle center position classifies as Wall — the probe samples
only the five hull points, never the center. -/
theorem accepted_center_wall_cex :
    (Car.update gs0 cexCar noInput cexTrack).2 = Outcome.clear ∧
    cexTrack.checkCollision (pyInt (Car.update gs0 cexCar noInput cexTrack).1.x)
      (pyInt (Car.update gs0 cexCar noInput cexTrack).1.y) = wallColor := by
  rw [update_eval]
  refine ⟨rfl, ?_⟩
  show cexTrack.checkCollision (pyInt cexCar.x) (pyInt cexCar.y) = wallColor
  rw [show cexCar.x = (100 : ℝ) from rfl, show cexCar.y = (100 : ℝ) from rfl,
    pyInt_eval (show (100 : ℝ) = ((100 : ℤ) : ℝ) by norm_num)]
  exact center_wall

/-- Witness for C1 amended at the concrete resting car: the Clear outcome
occurs and the probe at the accepted position is collision-free. -/
theorem accepted_position_probe_clear_witness :
    ((resolveMove gs0 cexCar cexTrack).2 = Outcome.clear ∨
     (resolveMove gs0 cexCar cexTrack).2 = Outcome.sliding ∨
     (resolveMove gs0 cexCar cexTrack).2 = Outcome.repositioned) ∧
    (checkCollisionAt (resolveMove gs0 cexCar cexTrack).1 cexTrack
      (resolveMove gs0 cexCar cexTrack).1.x
      (resolveMove gs0 cexCar cexTrack).1.y).collision = false :=
  ⟨Or.inl (by rw [resolveMove_eval]),
   accepted_position_probe_clear gs0 cexCar cexTrack
     (Or.inl (by rw [resolveMove_eval]))⟩

/-- The collision handler never reports the Clear outcome. -/
theorem collideBody_ne_clear (c1 : Car) (pts : List (ℤ × ℤ)) (t : Track) :
    (collideBody c1 pts t).2 ≠ Outcome.clear := by
  unfold collideBody
  dsimp only
  split
  · split
    · rcases stuckCheck_outcome (reflectVelocity c1 (calculateWallNormal c1 pts t))
        t (Real.sqrt (c1.vx ^ 2 + c1.vy ^ 2)) with h | h | h <;> simp [h]
    · simp
  · rcases stuckCheck_outcome c1 t (Real.sqrt (c1.vx ^ 2 + c1.vy ^ 2)) with
      h | h | h <;> simp [h]

/-- A Clear resolver outcome leaves the velocity untouched. -/
theorem resolveMove_clear_velocity (gs : GameSettings) (c : Car) (t : Track)
    (h : (resolveMove gs c t).2 = Outcome.clear) :
    (resolveMove gs c t).1.vx = c.vx ∧ (resolveMove gs c t).1.vy = c.vy := by
  unfold resolveMove at h ⊢
  dsimp only at h ⊢
  by_cases hres : (checkCollisionAt c t (c.x + c.vx) (c.y + c.vy)).collision = true
  · rw [if_pos hres] at h
    unfold handleCollision at h
    exact absurd h (collideBody_ne_clear _ _ t)
  · rw [if_neg hres] at h ⊢
    split <;> exact ⟨rfl, rfl⟩

/-- With all four inputs false, the pre-clamp phase multiplies both
velocity components by exactly the friction coefficient and keeps
`current_max_speed`. -/
theorem preClampPhase_noInput (c : Car) :
    (preClampPhase c noInput).vx = c.vx * c.friction ∧
    (preClampPhase c noInput).vy = c.vy * c.friction ∧
    (preClampPhase c noInput).currentMaxSpeed = c.currentMaxSpeed := by
  unfold preClampPhase noInput
  simp

/-- The clamp step rescales both velocity components by one common factor
in `(0, 1]`. -/
theorem clampSpeed_scale (c : Car)
    (hm : 0 < (if c.isReversing then c.currentMaxSpeed * REVERSE_SPEED_MULTIPLIER
               else c.currentMaxSpeed)) :
    ∃ s : ℝ, 0 < s ∧ s ≤ 1 ∧ (clampSpeed c).vx = s * c.vx ∧
      (clampSpeed c).vy = s * c.vy := by
  unfold clampSpeed
  dsimp only
  set m := (if c.isReversing then c.currentMaxSpeed * REVERSE_SPEED_MULTIPLIER
            else c.currentMaxSpeed) with hmdef
  set cs := Real.sqrt (c.vx ^ 2 + c.vy ^ 2) with hcs
  by_cases hgt : cs > m
  · rw [if_pos hgt]
    have hcs0 : 0 < cs := lt_trans hm hgt
    exact ⟨m / cs, div_pos hm hcs0, le_of_lt ((div_lt_one hcs0).mpr hgt),
      by dsimp only; ring, by dsimp only; ring⟩
  · rw [if_neg hgt]
    exact ⟨1, one_pos, le_refl 1, (one_mul _).symm, (one_mul _).symm⟩

/-- Scaling both velocity components scales the speed. -/
theorem speed_scale (k vx vy : ℝ) (hk : 0 ≤ k) :
    Real.sqrt ((k * vx) ^ 2 + (k * vy) ^ 2) =
      k * Real.sqrt (vx ^ 2 + vy ^ 2) := by
  rw [show (k * vx) ^ 2 + (k * vy) ^ 2 = k ^ 2 * (vx ^ 2 + vy ^ 2) by ring,
    Real.sqrt_mul (sq_nonneg k), Real.sqrt_sq_eq_abs, abs_of_nonneg hk]

/-- C7: with all four inputs false and a collision-free (Clear) tick, both
velocity components are multiplied by one common positive factor no larger
than the friction coefficient — so the speed decays monotonically
(geometrically) toward zero and neither component's sign ever flips. -/
theorem friction_decay_no_input (gs : GameSettings) (c : Car) (t : Track)
    (hf0 : 0 < c.friction) (hf1 : c.friction < 1) (hm : 0 < c.currentMaxSpeed)
    (hclear : (Car.update gs c noInput t).2 = Outcome.clear) :
    speedOf (Car.update gs c noInput t).1 ≤ c.friction * speedOf c ∧
    0 ≤ (Car.update gs c noInput t).1.vx * c.vx ∧
    0 ≤ (Car.update gs c noInput t).1.vy * c.vy ∧
    (Car.update gs c noInput t).1.vy * c.vx =
      (Car.update gs c noInput t).1.vx * c.vy := by
  have hclear' : (resolveMove gs (tickPhysics c noInput) t).2 = Outcome.clear :=
    hclear
  obtain ⟨hvx1, hvy1⟩ :=
    resolveMove_clear_velocity gs (tickPhysics c noInput) t hclear'
  obtain ⟨hpx, hpy, hpm⟩ := preClampPhase_noInput c
  have hmpos : 0 < (if (preClampPhase c noInput).isReversing
      then (preClampPhase c noInput).currentMaxSpeed * REVERSE_SPEED_MULTIPLIER
      else (preClampPhase c noInput).currentMaxSpeed) := by
    rw [hpm]
    split
    · have h05 : (0 : ℝ) < REVERSE_SPEED_MULTIPLIER := by
        norm_num [REVERSE_SPEED_MULTIPLIER]
      exact mul_pos hm h05
    · exact hm
  obtain ⟨s, hs0, hs1, hsx, hsy⟩ := clampSpeed_scale (preClampPhase c noInput) hmpos
  have htp : tickPhysics c noInput = clampSpeed (preClampPhase c noInput) := rfl
  have huvx : (Car.update gs c noInput t).1.vx =
      (resolveMove gs (tickPhysics c noInput) t).1.vx := rfl
  have huvy : (Car.update gs c noInput t).1.vy =
      (resolveMove gs (tickPhysics c noInput) t).1.vy := rfl
  have hvx : (Car.update gs c noInput t).1.vx = (s * c.friction) * c.vx := by
    rw [huvx, hvx1, htp, hsx, hpx]
    ring
  have hvy : (Car.update gs c noInput t).1.vy = (s * c.friction) * c.vy := by
    rw [huvy, hvy1, htp, hsy, hpy]
    ring
  have hk0 : 0 < s * c.friction := mul_pos hs0 hf0
  have hkle : s * c.friction ≤ c.friction :=
    mul_le_of_le_one_left (le_of_lt hf0) hs1
  refine ⟨?_, ?_, ?_, ?_⟩
  · unfold speedOf
    rw [hvx, hvy, speed_scale _ _ _ (le_of_lt hk0)]
    exact mul_le_mul_of_nonneg_right hkle (Real.sqrt_nonneg _)
  · rw [hvx]
    nlinarith [sq_nonneg c.vx]
  · rw [hvy]
    nlinarith [sq_nonneg c.vy]
  · rw [hvx, hvy]
    ring

/-- Witness for C7 at the concrete resting car (Clear tick established by
direct evaluation). -/
theorem friction_decay_no_input_witness :
    ((0 : ℝ) < cexCar.friction ∧ cexCar.friction < 1 ∧
     (0 : ℝ) < cexCar.currentMaxSpeed ∧
     (Car.update gs0 cexCar noInput cexTrack).2 = Outcome.clear) ∧
    (speedOf (Car.update gs0 cexCar noInput cexTrack).1 ≤
      cexCar.friction * speedOf cexCar ∧
     0 ≤ (Car.update gs0 cexCar noInput cexTrack).1.vx * cexCar.vx ∧
     0 ≤ (Car.update gs0 cexCar noInput cexTrack).1.vy * cexCar.vy ∧
     (Car.update gs0 cexCar noInput cexTrack).1.vy * cexCar.vx =
       (Car.update gs0 cexCar noInput cexTrack).1.vx * cexCar.vy) :=
  ⟨⟨by norm_num [cexCar], by norm_num [cexCar], by norm_num [cexCar],
    by rw [update_eval]⟩,
   friction_decay_no_input gs0 cexCar cexTrack (by norm_num [cexCar])
     (by norm_num [cexCar]) (by norm_num [cexCar]) (by rw [update_eval])⟩

end Race
